import Mathlib

/-!
# Evolved: unread-mail badge daemon (`main.go`)

A shallow embedding of the daemon's functions:

* `getEvolutionUnreadMailsCount` : the count aggregator,
* `emitDBusSignal`               : the badge publisher,
* `getEvolutionMailDatabasesPaths` over a model of `filepath.Walk`,
* `watchFSNotifications`         : the watcher loop,
* `main`                         : startup, and the shutdown handler.

Go's `uint` is modelled as a natural number reduced modulo `2 ^ bits`, where
`bits` is the platform width of `uint` (64 on amd64/arm64, 32 on 386/arm).
The external collaborators (SQLite files, the directory tree, the session
bus, the fsnotify watcher) are inputs of the model.
-/

namespace Evolved

/-! ## Databases and the count aggregator -/

/-- What one database file does during one aggregation call: whether
`sqlx.Connect` succeeds, what `db.SelectContext` scans into `counts`
(`none` when it returns an error) and whether `db.Close` succeeds. -/
structure Database where
  connect : Bool
  select : Option (List Nat)
  close : Bool

/-- The connection-level calls made by the aggregator, in program order. -/
inductive DbOp where
  | connect (dbFile : String) (ok : Bool)
  | select (dbFile : String) (ok : Bool)
  | close (dbFile : String) (ok : Bool)
  deriving DecidableEq

/-- The inner loop `for _, count := range counts { unreadCount += count }`
on a `uint` of width `bits`. -/
def addCounts (bits : Nat) (unreadCount : Nat) : List Nat → Nat
  | [] => unreadCount
  | count :: counts => addCounts bits ((unreadCount + count) % 2 ^ bits) counts

/-- Local state of `getEvolutionUnreadMailsCount`: the running total, the
calls made so far and the lines logged with `slog.Error`. -/
structure AggState where
  unreadCount : Nat
  ops : List DbOp
  errors : List String
  deriving DecidableEq

/-- The loop `for _, dbFile := range databasesPaths` of
`getEvolutionUnreadMailsCount`. Each of the three `continue` statements moves
to the next file; only the last of them comes after `db.Close()`. -/
def countLoop (bits : Nat) (db : String → Database) : List String → AggState → AggState
  | [], st => st
  | dbFile :: rest, st =>
    if (db dbFile).connect then
      match (db dbFile).select with
      | none =>
        -- `SelectContext` failed: log and `continue`
        countLoop bits db rest
          { st with
            ops := st.ops ++ [DbOp.connect dbFile true, DbOp.select dbFile false]
            errors := st.errors ++ ["Failed to get unread counts!"] }
      | some counts =>
        if (db dbFile).close then
          countLoop bits db rest
            { st with
              unreadCount := addCounts bits st.unreadCount counts
              ops := st.ops ++ [DbOp.connect dbFile true, DbOp.select dbFile true,
                DbOp.close dbFile true] }
        else
          -- `db.Close` failed: log and `continue`
          countLoop bits db rest
            { unreadCount := addCounts bits st.unreadCount counts
              ops := st.ops ++ [DbOp.connect dbFile true, DbOp.select dbFile true,
                DbOp.close dbFile false]
              errors := st.errors ++
                ["Failed to close database file for reading! Expect unexpected!"] }
    else
      -- `sqlx.Connect` failed: log and `continue`
      countLoop bits db rest
        { st with
          ops := st.ops ++ [DbOp.connect dbFile false]
          errors := st.errors ++ ["Failed to open Evolution database file!"] }

/-- Result of `getEvolutionUnreadMailsCount`: the two Go return values
(`err = none` is Go's `nil`) together with the calls made and lines logged. -/
structure AggResult where
  count : Nat
  err : Option String
  ops : List DbOp
  errors : List String
  deriving DecidableEq

/-- The function `getEvolutionUnreadMailsCount`, reading the global
`databasesPaths`. Its only `return` is `return unreadCount, nil`. A query cut
short by the shared five-second context is a query that fails. -/
def getEvolutionUnreadMailsCount (bits : Nat) (databasesPaths : List String)
    (db : String → Database) : AggResult :=
  let st := countLoop bits db databasesPaths { unreadCount := 0, ops := [], errors := [] }
  { count := st.unreadCount, err := none, ops := st.ops, errors := st.errors }

/-- Connections that are open after a sequence of calls: every successful
`connect` adds the file, every `close` call removes it (the handle is released
by `Close` whether or not it reports an error). -/
def openConnections : List DbOp → List String → List String
  | [], live => live
  | DbOp.connect dbFile true :: ops, live => openConnections ops (live ++ [dbFile])
  | DbOp.connect _ false :: ops, live => openConnections ops live
  | DbOp.select _ _ :: ops, live => openConnections ops live
  | DbOp.close dbFile _ :: ops, live => openConnections ops (live.erase dbFile)

/-! ## The badge publisher -/

/-- The two kinds of `dbus.Variant` the daemon builds. -/
inductive Variant where
  | uint (n : Nat)
  | bool (b : Bool)
  deriving DecidableEq

/-- A Go `map[string]dbus.Variant`, as an association list with unique keys. -/
abbrev Params := List (String × Variant)

/-- The assignment `params[key] = value`. -/
def Params.set (params : Params) (key : String) (value : Variant) : Params :=
  params.filter (fun kv => kv.1 != key) ++ [(key, value)]

/-- The lookup `params[key]`. -/
def Params.get (params : Params) (key : String) : Option Variant :=
  (params.find? (fun kv => kv.1 == key)).map Prod.snd

/-- The keys present in the map. -/
def Params.keys (params : Params) : List String :=
  params.map Prod.fst

/-- One call `dbusSession.Emit(path, name, identity, params)`. -/
structure Emission where
  path : String
  name : String
  identity : String
  params : Params
  deriving DecidableEq

/-- The function `emitDBusSignal`; `desktopFileName` is the value of the flag
`--desktop-file`. The result is the `Emit` call it makes (an error returned by
`Emit` is only logged). -/
def emitDBusSignal (desktopFileName : String) (unreadCount : Nat) : Emission :=
  let params : Params := []
  let params := params.set "count" (Variant.uint unreadCount)
  let params := params.set "count-visible" (Variant.bool (decide (unreadCount > 0)))
  { path := "/"
    name := "com.canonical.Unity.LauncherEntry.Update"
    identity := "application://" ++ desktopFileName
    params := params }

/-! ## The directory tree and `filepath.Walk` -/

/-- One entry of the directory tree as `filepath.Walk` sees it: an entry on
which `os.Lstat` fails, a non-directory, a directory whose listing cannot be
read, or a directory with its entries (in the order `readDirNames` returns
them, which is sorted by name). The entry at the root of the walk carries the
last element of the root path, `mail`. -/
inductive Entry where
  | lstatFails (name : String)
  | file (name : String)
  | dirUnreadable (name : String)
  | dir (name : String) (children : List Entry)

/-- The base name of an entry. -/
def Entry.name : Entry → String
  | Entry.lstatFails name => name
  | Entry.file name => name
  | Entry.dirUnreadable name => name
  | Entry.dir name _ => name

/-- The result of `info.IsDir()` for an entry whose `Lstat` succeeded. -/
def Entry.isDir : Entry → Bool
  | Entry.dirUnreadable _ => true
  | Entry.dir _ _ => true
  | _ => false

/-- The part of `os.FileInfo` the program reads. -/
structure FileInfo where
  name : String
  isDir : Bool
  deriving DecidableEq

/-- The errors a `filepath.WalkFunc` can return that `Walk` tells apart. -/
inductive WalkErr where
  | skipDir
  | skipAll
  | other (msg : String)
  deriving DecidableEq

/-- A `filepath.WalkFunc` acting on a state `σ` (the program's globals): it is
given the path, the file info (`none` for Go's `nil`) and the incoming error. -/
abbrev WalkFunc (σ : Type) := String → Option FileInfo → Option String → σ → Option WalkErr × σ

/-- The elements of a path: the pieces between its slashes. -/
def splitSlash : List Char → List (List Char)
  | [] => [[]]
  | c :: cs =>
    if c = '/' then [] :: splitSlash cs
    else
      match splitSlash cs with
      | [] => [[c]]
      | elem :: elems => (c :: elem) :: elems

/-- The element loop of the standard library's `path.Clean`; `kept` holds the
elements written to the output so far, last first. An empty element and `.`
are dropped; `..` removes the last element written when there is one that is
not itself `..`, is dropped at the root of a rooted path, and is kept
otherwise; any other element is written. -/
def cleanElems (rooted : Bool) : List (List Char) → List (List Char) → List (List Char)
  | [], kept => kept
  | elem :: rest, kept =>
    if elem = [] ∨ elem = ['.'] then cleanElems rooted rest kept
    else if elem = ['.', '.'] then
      match kept with
      | top :: below =>
        if top = ['.', '.'] then cleanElems rooted rest (elem :: kept)
        else cleanElems rooted rest below
      | [] => if rooted then cleanElems rooted rest [] else cleanElems rooted rest [elem]
    else cleanElems rooted rest (elem :: kept)

/-- The standard library's `path.Clean` (and `filepath.Clean` on Unix): the
shortest equivalent path, `.` for an empty result. -/
def pathClean (path : String) : String :=
  let rooted : Bool := path.data.head? = some '/'
  let kept := (cleanElems rooted (splitSlash path.data) []).reverse
  if rooted then String.mk ('/' :: List.intercalate ['/'] kept)
  else if kept = [] then "."
  else String.mk (List.intercalate ['/'] kept)

/-- The loop of `path.Join` that fills `buf`: leading empty elements are
skipped, later elements are appended after a slash. -/
def joinElems : List String → List Char → List Char
  | [], buf => buf
  | e :: rest, buf =>
    if buf ≠ [] ∨ e ≠ "" then
      joinElems rest (if buf ≠ [] then buf ++ '/' :: e.data else buf ++ e.data)
    else joinElems rest buf

/-- The standard library's `path.Join` (and `filepath.Join` on Unix): the
empty string when every element is empty, else the cleaned concatenation. -/
def pathJoin (elem : List String) : String :=
  if (elem.map String.length).sum = 0 then ""
  else pathClean (String.mk (joinElems elem []))

/-- The call `filepath.Join(path, name)` made by `filepath.walk`. -/
def joinPath (path name : String) : String :=
  pathJoin [path, name]

mutual
/-- The standard library's `filepath.walk`. For an entry whose `Lstat` failed
the callers invoke `walkFn(filename, nil, err)` themselves; that call is the
first case. A non-directory is handed to `walkFn`; for a directory `walkFn`
gets the error of `readDirNames`, and the entries are walked only when both
that error and the result of `walkFn` are `nil`. -/
def walk {σ : Type} (walkFn : WalkFunc σ) (path : String) : Entry → σ → Option WalkErr × σ
  | Entry.lstatFails _, s => walkFn path none (some "lstat failed") s
  | Entry.file name, s => walkFn path (some { name := name, isDir := false }) none s
  | Entry.dirUnreadable name, s =>
    walkFn path (some { name := name, isDir := true }) (some "readdir failed") s
  | Entry.dir name children, s =>
    match walkFn path (some { name := name, isDir := true }) none s with
    | (some err1, s1) => (some err1, s1)
    | (none, s1) => walkNames walkFn path children s1
/-- The loop `for _, name := range names` of `filepath.walk`: `SkipDir` from
an entry whose `Lstat` failed or from a directory is absorbed, any other
error stops the walk. -/
def walkNames {σ : Type} (walkFn : WalkFunc σ) (path : String) :
    List Entry → σ → Option WalkErr × σ
  | [], s => (none, s)
  | child :: rest, s =>
    match walk walkFn (joinPath path child.name) child s with
    | (none, s1) => walkNames walkFn path rest s1
    | (some WalkErr.skipDir, s1) =>
      match child with
      | Entry.file _ => (some WalkErr.skipDir, s1)
      | _ => walkNames walkFn path rest s1
    | (some err, s1) => (some err, s1)
end

/-- The standard library's `filepath.Walk(root, fn)`; `tree` is what the file
system holds at `root`. `SkipDir` and `SkipAll` are turned into `nil`. -/
def Walk {σ : Type} (root : String) (tree : Entry) (fn : WalkFunc σ) (s : σ) :
    Option WalkErr × σ :=
  match walk fn root tree s with
  | (some WalkErr.skipDir, s1) => (none, s1)
  | (some WalkErr.skipAll, s1) => (none, s1)
  | r => r

/-- Go's `strings.HasSuffix`. -/
def hasSuffix (s suffix : String) : Bool :=
  suffix.data.isSuffixOf s.data

/-- The anonymous `WalkFunc` passed by `getEvolutionMailDatabasesPaths`; the
state is the global `databasesPaths`. It returns `nil` on every path. -/
def collectDatabase : WalkFunc (List String) := fun path info err databasesPaths =>
  match err, info with
  | none, some info =>
    if hasSuffix info.name "folders.db" then (none, databasesPaths ++ [path])
    else (none, databasesPaths)
  | _, _ => (none, databasesPaths)

/-- The root of the walk: `path.Join(userData.HomeDir, ".cache", "evolution",
"mail")`. -/
def mailCacheDir (homeDir : String) : String :=
  pathJoin [homeDir, ".cache", "evolution", "mail"]

/-- The function `getEvolutionMailDatabasesPaths`. `userCurrent` is the result
of `user.Current()` (the home directory, or `none` on error), `tree` is what
the file system holds at the mail cache directory, and `databasesPaths` is the
global before the call. Returns the error and the global after the call. -/
def getEvolutionMailDatabasesPaths (userCurrent : Option String) (tree : Entry)
    (databasesPaths : List String) : Option String × List String :=
  match userCurrent with
  | none => (some "getEvolutionMailDatabasesPaths: get current user", databasesPaths)
  | some homeDir =>
    match Walk (mailCacheDir homeDir) tree collectDatabase databasesPaths with
    | (some _, paths) => (some "getEvolutionMailDatabasesPaths: get databases paths", paths)
    | (none, paths) => (none, paths)

mutual
/-- Every entry of a tree with its path, parents before their entries. -/
def Entry.listing (path : String) : Entry → List (String × Entry)
  | Entry.lstatFails name => [(path, Entry.lstatFails name)]
  | Entry.file name => [(path, Entry.file name)]
  | Entry.dirUnreadable name => [(path, Entry.dirUnreadable name)]
  | Entry.dir name children => (path, Entry.dir name children) :: Entry.listingOf path children
/-- The entries below a directory, with their paths. -/
def Entry.listingOf (path : String) : List Entry → List (String × Entry)
  | [] => []
  | child :: rest =>
    Entry.listing (joinPath path child.name) child ++ Entry.listingOf path rest
end

mutual
/-- A tree in which every entry can be examined and every directory listed. -/
def Entry.readable : Entry → Bool
  | Entry.lstatFails _ => false
  | Entry.file _ => true
  | Entry.dirUnreadable _ => false
  | Entry.dir _ children => Entry.readableAll children
/-- All trees of a list are readable. -/
def Entry.readableAll : List Entry → Bool
  | [] => true
  | child :: rest => Entry.readable child && Entry.readableAll rest
end

/-- The entry is handed to the callback without an error: `os.Lstat` on it
succeeded and, for a directory, its listing could be read. -/
def Entry.examined : Entry → Bool
  | Entry.file _ => true
  | Entry.dir _ _ => true
  | _ => false

/-- Byte order on names, the order `readDirNames` sorts by. -/
def nameLt : List Char → List Char → Bool
  | [], [] => false
  | [], _ :: _ => true
  | _ :: _, [] => false
  | a :: as, b :: bs =>
    if a.toNat < b.toNat then true
    else if a.toNat = b.toNat then nameLt as bs
    else false

/-- A name a directory listing can hold: not empty, not `.` or `..`, and
without a slash. -/
def plainName (name : String) : Bool :=
  name != "" && name != "." && name != ".." && !name.data.contains '/'

/-- The names are plain and strictly increasing, as `readDirNames` returns
them. -/
def namesListed : List String → Bool
  | [] => true
  | [a] => plainName a
  | a :: b :: rest => plainName a && nameLt a.data b.data && namesListed (b :: rest)

mutual
/-- Every directory of the tree lists its entries the way `readDirNames` does. -/
def Entry.wellFormed : Entry → Bool
  | Entry.dir _ children =>
    namesListed (children.map Entry.name) && Entry.wellFormedAll children
  | _ => true
/-- All trees of a list are well formed. -/
def Entry.wellFormedAll : List Entry → Bool
  | [] => true
  | child :: rest => Entry.wellFormed child && Entry.wellFormedAll rest
end

/-- The discovery contract in the words of the specification: the paths of the
files (not directories) of the tree whose name ends with `folders.db`. -/
def specDatabaseFiles (root : String) (tree : Entry) : List String :=
  ((Entry.listing root tree).filter
    (fun pe => !pe.2.isDir && hasSuffix pe.2.name "folders.db")).map Prod.fst

/-- The paths of the listed entries whose name ends with `folders.db`, in the
order of the listing, one per listed entry. -/
def matchingPaths (entries : List (String × Entry)) : List String :=
  (entries.filter (fun pe => hasSuffix pe.2.name "folders.db")).map Prod.fst

/-- The paths of all entries of the tree, files and directories alike, whose
name ends with `folders.db`. -/
def matchingEntries (root : String) (tree : Entry) : List String :=
  matchingPaths (Entry.listing root tree)

/-- The paths of the listed entries that are examined without error and whose
name ends with `folders.db`, in the order of the listing, one per entry. -/
def examinedMatchingPaths (entries : List (String × Entry)) : List String :=
  (entries.filter
    (fun pe => pe.2.examined && hasSuffix pe.2.name "folders.db")).map Prod.fst

/-- The paths of all entries of the tree, files and directories alike, that
are examined without error and whose name ends with `folders.db`. -/
def examinedMatchingEntries (root : String) (tree : Entry) : List String :=
  examinedMatchingPaths (Entry.listing root tree)

/-! ## The watcher loop -/

/-- What one iteration of the `select` in `watchFSNotifications` can receive.
A change event comes with the state of the database files at the moment the
loop re-reads them. -/
inductive WatchInput where
  | event (name : String) (op : String) (db : String → Database)
  | error (msg : String)
  | eventsClosed
  | errorsClosed

/-- State of the watcher goroutine: whether the `for` loop is still running
and the `Emit` calls it has made. -/
structure WatchState where
  running : Bool
  published : List Emission
  deriving DecidableEq

/-- One iteration of the loop in `watchFSNotifications`. Once the function
has returned nothing happens. -/
def watchStep (bits : Nat) (desktopFileName : String) (databasesPaths : List String)
    (st : WatchState) (input : WatchInput) : WatchState :=
  if st.running then
    match input with
    | WatchInput.event _ _ db =>
      match (getEvolutionUnreadMailsCount bits databasesPaths db).err with
      | some _ => st
      | none =>
        { st with
          published := st.published ++
            [emitDBusSignal desktopFileName
              (getEvolutionUnreadMailsCount bits databasesPaths db).count] }
    | WatchInput.error _ => st
    | WatchInput.eventsClosed => { st with running := false }
    | WatchInput.errorsClosed => { st with running := false }
  else st

/-- The function `watchFSNotifications` run on a finite sequence of inputs. -/
def watchFSNotifications (bits : Nat) (desktopFileName : String) (databasesPaths : List String)
    (inputs : List WatchInput) : WatchState :=
  inputs.foldl (watchStep bits desktopFileName databasesPaths)
    { running := true, published := [] }

/-! ## Startup -/

/-- The environment `main` runs in. -/
structure Env where
  bits : Nat
  desktopFileName : String
  connectSessionBus : Bool
  newWatcher : Bool
  userCurrent : Option String
  mailDir : Entry
  db : String → Database

/-- How the startup part of `main` ends: `os.Exit(code)`, or the log line
"Evolved started." is reached with the discovered paths and the initial
`Emit` call. -/
inductive MainResult where
  | exit (code : Nat)
  | started (databasesPaths : List String) (initial : Emission)
  deriving DecidableEq

/-- The function `main` up to the log line "Evolved started.": connect to the
session bus (exit 3), create the watcher (exit 1), discover the databases
(exit 2), aggregate once (exit 4) and publish. Registering the paths with
`watcher.Add` (errors ignored) and starting the watcher goroutine change
nothing in what this thread returns. -/
def main (env : Env) : MainResult :=
  if env.connectSessionBus then
    if env.newWatcher then
      match getEvolutionMailDatabasesPaths env.userCurrent env.mailDir [] with
      | (some _, _) => MainResult.exit 2
      | (none, databasesPaths) =>
        match (getEvolutionUnreadMailsCount env.bits databasesPaths env.db).err with
        | some _ => MainResult.exit 4
        | none =>
          MainResult.started databasesPaths
            (emitDBusSignal env.desktopFileName
              (getEvolutionUnreadMailsCount env.bits databasesPaths env.db).count)
    else MainResult.exit 1
  else MainResult.exit 3

/-! ## Shutdown: the goroutines after startup -/

/-- Where the goroutine running `watchFSNotifications` stands: blocked in the
`select`, between `getEvolutionUnreadMailsCount` and `emitDBusSignal` with the
count it computed, or returned. -/
inductive WatcherPc where
  | selecting
  | aggregated (unreadCount : Nat)
  | returned
  deriving DecidableEq

/-- Where the shutdown goroutine of `main` stands: blocked on `signalHandler`,
past the receive, past `watcher.Close()`, past `emitDBusSignal(0)`, or past
`shutdownDone <- true`. -/
inductive HandlerPc where
  | waiting
  | signalled
  | watcherClosed
  | emitted
  | done
  deriving DecidableEq

/-- The process after "Evolved started.": the two goroutines, whether the
fsnotify watcher is still open, the exit code once `os.Exit` has run, and all
`Emit` calls made on the shared bus connection, oldest first. -/
structure Sys where
  watcher : WatcherPc
  handler : HandlerPc
  watcherOpen : Bool
  exitCode : Option Nat
  published : List Emission
  deriving DecidableEq

/-- One scheduling step of the process.

* `fsEvent db`: the watcher goroutine receives a change event and runs
  `getEvolutionUnreadMailsCount` on the databases as they are then;
* `fsError`: it receives a watcher error and logs it;
* `watcherEmit`: it calls `emitDBusSignal(unreadCount)`;
* `watcherReturn`: it receives from a closed channel and returns;
* `signal`: the shutdown goroutine receives SIGINT or SIGTERM;
* `handlerClose`: it calls `watcher.Close()`;
* `handlerEmit`: it calls `emitDBusSignal(0)`;
* `handlerDone`: it sends on `shutdownDone`;
* `mainExit`: the main goroutine receives from `shutdownDone` and calls
  `os.Exit(0)`. -/
inductive Action where
  | fsEvent (db : String → Database)
  | fsError
  | watcherEmit
  | watcherReturn
  | signal
  | handlerClose
  | handlerEmit
  | handlerDone
  | mainExit

/-- The effect of one step, `none` when the step cannot be taken in this
state. Nothing runs after `os.Exit`. -/
def sysStep (bits : Nat) (desktopFileName : String) (databasesPaths : List String)
    (s : Sys) (a : Action) : Option Sys :=
  if s.exitCode.isSome then none
  else
    match a with
    | Action.fsEvent db =>
      -- `case event, ok := <-watcher.Events` with `ok`, then the aggregation
      if s.watcher = WatcherPc.selecting ∧ s.watcherOpen = true then
        match (getEvolutionUnreadMailsCount bits databasesPaths db).err with
        | some _ => some s
        | none =>
          some { s with
            watcher := WatcherPc.aggregated
              (getEvolutionUnreadMailsCount bits databasesPaths db).count }
      else none
    | Action.fsError =>
      if s.watcher = WatcherPc.selecting ∧ s.watcherOpen = true then some s else none
    | Action.watcherEmit =>
      match s.watcher with
      | WatcherPc.aggregated unreadCount =>
        some { s with
          watcher := WatcherPc.selecting
          published := s.published ++ [emitDBusSignal desktopFileName unreadCount] }
      | _ => none
    | Action.watcherReturn =>
      -- a receive on a closed channel: `!ok`, `return`
      if s.watcher = WatcherPc.selecting ∧ s.watcherOpen = false then
        some { s with watcher := WatcherPc.returned }
      else none
    | Action.signal =>
      if s.handler = HandlerPc.waiting then some { s with handler := HandlerPc.signalled }
      else none
    | Action.handlerClose =>
      if s.handler = HandlerPc.signalled then
        some { s with handler := HandlerPc.watcherClosed, watcherOpen := false }
      else none
    | Action.handlerEmit =>
      if s.handler = HandlerPc.watcherClosed then
        some { s with
          handler := HandlerPc.emitted
          published := s.published ++ [emitDBusSignal desktopFileName 0] }
      else none
    | Action.handlerDone =>
      if s.handler = HandlerPc.emitted then some { s with handler := HandlerPc.done }
      else none
    | Action.mainExit =>
      -- `<-shutdownDone` then `os.Exit(0)`
      if s.handler = HandlerPc.done then some { s with exitCode := some 0 } else none

/-- A schedule run from a state; `none` when some step cannot be taken. -/
def sysRun (bits : Nat) (desktopFileName : String) (databasesPaths : List String) :
    Sys → List Action → Option Sys
  | s, [] => some s
  | s, a :: rest =>
    match sysStep bits desktopFileName databasesPaths s a with
    | none => none
    | some s1 => sysRun bits desktopFileName databasesPaths s1 rest

/-- The process right after "Evolved started.": the watcher goroutine is in
its `select`, the shutdown goroutine waits for a signal, and the initial
`Emit` has been made. -/
def sysStart (initial : Emission) : Sys :=
  { watcher := WatcherPc.selecting
    handler := HandlerPc.waiting
    watcherOpen := true
    exitCode := none
    published := [initial] }

/-! ## Specification-side notions for the aggregator -/

/-- The sum of the unread counts a database returns to the query (0 when the
query returns no rows or fails). -/
def Database.unread (d : Database) : Nat :=
  (d.select.getD []).sum

/-- A database is readable when it opens and answers the query. -/
def Database.readable (d : Database) : Bool :=
  d.connect && d.select.isSome

/-- The sum, over all databases, of each database's unread counts. -/
def totalUnread (db : String → Database) (databasesPaths : List String) : Nat :=
  (databasesPaths.map (fun dbFile => (db dbFile).unread)).sum

/-- The sum of the unread counts of the readable databases only. -/
def readableUnread (db : String → Database) (databasesPaths : List String) : Nat :=
  ((databasesPaths.filter (fun dbFile => (db dbFile).readable)).map
    (fun dbFile => (db dbFile).unread)).sum

/-- The contribution of one file to the running total. -/
def contribution (d : Database) : Nat :=
  if d.readable then d.unread else 0

/-- The input reports a closed channel. -/
def WatchInput.isClosed : WatchInput → Bool
  | WatchInput.eventsClosed => true
  | WatchInput.errorsClosed => true
  | _ => false

/-- The signal a change event calls for: the count aggregated from the state
of the databases at that moment. Other inputs call for none. -/
def WatchInput.signal (bits : Nat) (desktopFileName : String) (databasesPaths : List String) :
    WatchInput → Option Emission
  | WatchInput.event _ _ db =>
    some (emitDBusSignal desktopFileName
      (getEvolutionUnreadMailsCount bits databasesPaths db).count)
  | _ => none

/-- The signals called for by the inputs that come before the first
channel-closed input, in order of arrival. -/
def expectedSignals (bits : Nat) (desktopFileName : String) (databasesPaths : List String)
    (inputs : List WatchInput) : List Emission :=
  (inputs.takeWhile (fun i => !i.isClosed)).filterMap
    (WatchInput.signal bits desktopFileName databasesPaths)

/-! ## Concrete inputs -/

/-- A mail cache path used in the examples. -/
def inboxDb : String := "/home/u/.cache/evolution/mail/1/folders.db"

/-- A second mail cache path. -/
def archiveDb : String := "/home/u/.cache/evolution/mail/2/folders.db"

/-- A third mail cache path. -/
def draftsDb : String := "/home/u/.cache/evolution/mail/3/folders.db"

/-- Every database opens, closes and returns two rows of `2 ^ 63` each. -/
def hugeCounts : String → Database := fun _ =>
  { connect := true, select := some [2 ^ 63, 2 ^ 63], close := true }

/-- The databases of the end-to-end scenario: unread counts 2, 0 and 5. -/
def scenarioDb : String → Database := fun dbFile =>
  if dbFile = inboxDb then { connect := true, select := some [2], close := true }
  else if dbFile = archiveDb then { connect := true, select := some [0], close := true }
  else { connect := true, select := some [1, 4], close := true }

/-- The first database cannot be opened, the second returns the largest
64-bit count, the third returns 1. -/
def mixedDb : String → Database := fun dbFile =>
  if dbFile = inboxDb then { connect := false, select := none, close := true }
  else if dbFile = archiveDb then { connect := true, select := some [2 ^ 64 - 1], close := true }
  else { connect := true, select := some [1], close := true }

/-- The first database has no `folders` table (the query fails), the second
cannot be opened, the third returns 3 and 4 and fails to close. -/
def brokenDb : String → Database := fun dbFile =>
  if dbFile = inboxDb then { connect := true, select := none, close := true }
  else if dbFile = archiveDb then { connect := false, select := none, close := true }
  else { connect := true, select := some [3, 4], close := false }

/-- A mail cache with an account directory holding `folders.db` and its
journal, and a directory whose own name ends with `folders.db`. -/
def cacheWithMatchingDir : Entry :=
  Entry.dir "mail"
    [Entry.dir "1" [Entry.file "folders.db", Entry.file "folders.db-journal"],
      Entry.dir "old-folders.db" [Entry.file "notes.txt"]]

/-- A mail cache with matching files at three depths between files that do
not match, every directory listed in sorted order. -/
def cacheNested : Entry :=
  Entry.dir "mail"
    [Entry.dir "1"
        [Entry.file "cache.xml",
          Entry.file "folders.db",
          Entry.dir "sub" [Entry.file "archive-folders.db", Entry.file "folders.db-journal"]],
      Entry.file "folders.db",
      Entry.file "readme.txt"]

/-- A mail cache in which account `2` cannot be listed and the file in account
`3` cannot be examined; accounts `1` and `4` are in order. -/
def cachePartlyUnreadable : Entry :=
  Entry.dir "mail"
    [Entry.dir "1" [Entry.file "folders.db"],
      Entry.dirUnreadable "2",
      Entry.dir "3" [Entry.lstatFails "folders.db"],
      Entry.dir "4" [Entry.file "folders.db"]]

/-- The environment of a user whose mail cache directory does not exist. -/
def missingCacheEnv : Env :=
  { bits := 64
    desktopFileName := "org.gnome.Evolution.desktop"
    connectSessionBus := true
    newWatcher := true
    userCurrent := some "/home/u"
    mailDir := Entry.lstatFails "mail"
    db := scenarioDb }

/-- An environment built from the outcomes of the first three startup steps;
the mail cache is empty. -/
def startupEnv (bus watcher : Bool) (user : Option String) : Env :=
  { bits := 64
    desktopFileName := "org.gnome.Evolution.desktop"
    connectSessionBus := bus
    newWatcher := watcher
    userCurrent := user
    mailDir := Entry.dir "mail" []
    db := scenarioDb }

/-- The databases of the scenario after the inbox count has dropped to 0. -/
def scenarioDbRead : String → Database := fun dbFile =>
  if dbFile = inboxDb then { connect := true, select := some [0], close := true }
  else scenarioDb dbFile

/-- A schedule in which the termination signal arrives while the watcher
goroutine is between its aggregation and its publish. -/
def lateWatcherSchedule : List Action :=
  [Action.fsEvent scenarioDbRead, Action.signal, Action.handlerClose, Action.handlerEmit,
    Action.watcherEmit, Action.handlerDone, Action.mainExit]

/-! ## Lemmas on the aggregator -/

theorem addCounts_mod (bits : Nat) (counts : List Nat) (unreadCount : Nat) :
    addCounts bits unreadCount counts % 2 ^ bits = (unreadCount + counts.sum) % 2 ^ bits := by
  induction counts generalizing unreadCount with
  | nil => simp [addCounts]
  | cons count counts ih =>
    simp only [addCounts, List.sum_cons]
    rw [ih, Nat.mod_add_mod, Nat.add_assoc]

theorem addCounts_lt (bits : Nat) (counts : List Nat) (unreadCount : Nat)
    (h : unreadCount < 2 ^ bits) : addCounts bits unreadCount counts < 2 ^ bits := by
  induction counts generalizing unreadCount with
  | nil => simpa [addCounts] using h
  | cons count counts ih =>
    simp only [addCounts]
    exact ih _ (Nat.mod_lt _ (Nat.two_pow_pos bits))

theorem addCounts_eq (bits : Nat) (counts : List Nat) (unreadCount : Nat)
    (h : unreadCount < 2 ^ bits) :
    addCounts bits unreadCount counts = (unreadCount + counts.sum) % 2 ^ bits := by
  rw [← addCounts_mod, Nat.mod_eq_of_lt (addCounts_lt bits counts unreadCount h)]

theorem countLoop_unreadCount (bits : Nat) (db : String → Database) (paths : List String)
    (st : AggState) (h : st.unreadCount < 2 ^ bits) :
    (countLoop bits db paths st).unreadCount =
      (st.unreadCount + (paths.map (fun dbFile => contribution (db dbFile))).sum) % 2 ^ bits := by
  induction paths generalizing st with
  | nil => simp [countLoop, Nat.mod_eq_of_lt h]
  | cons dbFile rest ih =>
    simp only [countLoop, List.map_cons, List.sum_cons]
    cases hc : (db dbFile).connect with
    | false =>
      simp only [Bool.false_eq_true, if_false]
      refine (ih _ ?_).trans ?_
      · exact h
      · simp [contribution, Database.readable, hc]
    | true =>
      simp only [if_true]
      cases hs : (db dbFile).select with
      | none =>
        simp only
        refine (ih _ ?_).trans ?_
        · exact h
        · simp [contribution, Database.readable, hc, hs]
      | some counts =>
        have hlt := addCounts_lt bits counts st.unreadCount h
        have hsum : contribution (db dbFile) = counts.sum := by
          simp [contribution, Database.readable, Database.unread, hc, hs]
        cases hcl : (db dbFile).close with
        | false =>
          simp only [Bool.false_eq_true, if_false]
          rw [ih _ hlt]
          simp only [hsum]
          rw [addCounts_eq bits counts st.unreadCount h, Nat.mod_add_mod, Nat.add_assoc]
        | true =>
          simp only [if_true]
          rw [ih _ hlt]
          simp only [hsum]
          rw [addCounts_eq bits counts st.unreadCount h, Nat.mod_add_mod, Nat.add_assoc]

theorem sum_contribution_eq_readableUnread (db : String → Database) (paths : List String) :
    (paths.map (fun dbFile => contribution (db dbFile))).sum = readableUnread db paths := by
  induction paths with
  | nil => simp [readableUnread]
  | cons dbFile rest ih =>
    simp only [readableUnread, contribution] at ih ⊢
    by_cases hr : (db dbFile).readable = true
    · simp [hr, List.filter_cons, ih]
    · simp [hr, List.filter_cons, ih]

theorem getEvolutionUnreadMailsCount_count (bits : Nat) (db : String → Database)
    (paths : List String) :
    (getEvolutionUnreadMailsCount bits paths db).count = readableUnread db paths % 2 ^ bits := by
  simp only [getEvolutionUnreadMailsCount]
  rw [countLoop_unreadCount bits db paths _ (Nat.two_pow_pos bits)]
  simp [sum_contribution_eq_readableUnread]

theorem getEvolutionUnreadMailsCount_err (bits : Nat) (db : String → Database)
    (paths : List String) : (getEvolutionUnreadMailsCount bits paths db).err = none := rfl

theorem readableUnread_eq_totalUnread (db : String → Database) (paths : List String)
    (h : ∀ dbFile ∈ paths, (db dbFile).readable = true) :
    readableUnread db paths = totalUnread db paths := by
  simp only [readableUnread, totalUnread]
  rw [List.filter_eq_self.mpr h]

/-! ## C1, C2: the aggregated total -/

/-- C1 (as stated, refuted): on a 64-bit platform, with one database that opens,
returns the rows `2 ^ 63` and `2 ^ 63` and closes, the returned total is 0 and
not the sum `2 ^ 64` of the returned counts. -/
theorem count_all_ok_overflow :
    (∀ dbFile ∈ [inboxDb], (hugeCounts dbFile).connect = true ∧
      (∃ counts, (hugeCounts dbFile).select = some counts ∧ ∀ c ∈ counts, c < 2 ^ 64) ∧
      (hugeCounts dbFile).close = true) ∧
    (getEvolutionUnreadMailsCount 64 [inboxDb] hugeCounts).count = 0 ∧
    totalUnread hugeCounts [inboxDb] = 2 ^ 64 ∧
    (getEvolutionUnreadMailsCount 64 [inboxDb] hugeCounts).count ≠
      totalUnread hugeCounts [inboxDb] := by
  refine ⟨?_, ?_, ?_, ?_⟩
  · intro dbFile _
    exact ⟨rfl, ⟨[2 ^ 63, 2 ^ 63], rfl, by decide⟩, rfl⟩
  · decide
  · decide
  · decide

/-- C1 (amended): when every database opens, answers the query and closes
without error, the returned total is the sum over all databases of the sums of
their unread counts, reduced modulo `2 ^ bits` (the width of `uint`); it is
that sum itself whenever the sum is below `2 ^ bits`. -/
theorem count_all_ok (bits : Nat) (db : String → Database) (databasesPaths : List String)
    (h : ∀ dbFile ∈ databasesPaths, (db dbFile).connect = true ∧
      (∃ counts, (db dbFile).select = some counts) ∧ (db dbFile).close = true) :
    (getEvolutionUnreadMailsCount bits databasesPaths db).count =
      totalUnread db databasesPaths % 2 ^ bits ∧
    (totalUnread db databasesPaths < 2 ^ bits →
      (getEvolutionUnreadMailsCount bits databasesPaths db).count =
        totalUnread db databasesPaths) := by
  have hr : ∀ dbFile ∈ databasesPaths, (db dbFile).readable = true := by
    intro dbFile hmem
    obtain ⟨hc, ⟨counts, hs⟩, _⟩ := h dbFile hmem
    simp [Database.readable, hc, hs]
  have hcount := getEvolutionUnreadMailsCount_count bits db databasesPaths
  rw [readableUnread_eq_totalUnread db databasesPaths hr] at hcount
  exact ⟨hcount, fun hlt => by rw [hcount, Nat.mod_eq_of_lt hlt]⟩

/-- The end-to-end scenario: three databases with unread counts 2, 0 and 5
give the total 7. -/
theorem count_all_ok_witness :
    (getEvolutionUnreadMailsCount 64 [inboxDb, archiveDb, draftsDb] scenarioDb).count =
      totalUnread scenarioDb [inboxDb, archiveDb, draftsDb] % 2 ^ 64 ∧
    (getEvolutionUnreadMailsCount 64 [inboxDb, archiveDb, draftsDb] scenarioDb).count = 7 :=
  have hyp : ∀ dbFile ∈ [inboxDb, archiveDb, draftsDb], (scenarioDb dbFile).connect = true ∧
      (∃ counts, (scenarioDb dbFile).select = some counts) ∧
      (scenarioDb dbFile).close = true := by
    intro dbFile _
    unfold scenarioDb
    split
    · exact ⟨rfl, ⟨_, rfl⟩, rfl⟩
    · split
      · exact ⟨rfl, ⟨_, rfl⟩, rfl⟩
      · exact ⟨rfl, ⟨_, rfl⟩, rfl⟩
  ⟨(count_all_ok 64 scenarioDb [inboxDb, archiveDb, draftsDb] hyp).1,
    ((count_all_ok 64 scenarioDb [inboxDb, archiveDb, draftsDb] hyp).2 (by decide)).trans
      (by decide)⟩

/-- C2 (as stated, refuted): on a 64-bit platform, with a first database that
cannot be opened, a second returning `2 ^ 64 - 1` and a third returning 1, the
error is `nil` but the returned total is 0, not the sum `2 ^ 64` of the unread
counts of the readable databases. -/
theorem count_readable_overflow :
    (getEvolutionUnreadMailsCount 64 [inboxDb, archiveDb, draftsDb] mixedDb).err = none ∧
    (getEvolutionUnreadMailsCount 64 [inboxDb, archiveDb, draftsDb] mixedDb).count = 0 ∧
    readableUnread mixedDb [inboxDb, archiveDb, draftsDb] = 2 ^ 64 ∧
    (getEvolutionUnreadMailsCount 64 [inboxDb, archiveDb, draftsDb] mixedDb).count ≠
      readableUnread mixedDb [inboxDb, archiveDb, draftsDb] := by
  refine ⟨rfl, ?_, ?_, ?_⟩
  · decide
  · decide
  · decide

/-- C2 (amended): for every list of paths and every assignment of outcomes the
error is `nil` and the returned total is the sum of the unread counts of the
readable databases reduced modulo `2 ^ bits` (that sum itself when it is below
`2 ^ bits`); a database that fails to open or to answer the query contributes
0 and the databases after it are still counted: removing it from the list
leaves the total unchanged. -/
theorem count_readable (bits : Nat) (db : String → Database) (databasesPaths : List String) :
    (getEvolutionUnreadMailsCount bits databasesPaths db).err = none ∧
    (getEvolutionUnreadMailsCount bits databasesPaths db).count =
      readableUnread db databasesPaths % 2 ^ bits ∧
    (readableUnread db databasesPaths < 2 ^ bits →
      (getEvolutionUnreadMailsCount bits databasesPaths db).count =
        readableUnread db databasesPaths) ∧
    (∀ before dbFile after, databasesPaths = before ++ dbFile :: after →
      (db dbFile).readable = false →
      (getEvolutionUnreadMailsCount bits databasesPaths db).count =
        (getEvolutionUnreadMailsCount bits (before ++ after) db).count) := by
  refine ⟨rfl, getEvolutionUnreadMailsCount_count bits db databasesPaths, ?_, ?_⟩
  · intro hlt
    rw [getEvolutionUnreadMailsCount_count, Nat.mod_eq_of_lt hlt]
  · intro before dbFile after hlist hbad
    rw [getEvolutionUnreadMailsCount_count, getEvolutionUnreadMailsCount_count, hlist]
    simp [readableUnread, List.filter_cons, hbad]

/-- The aggregation over a database without a `folders` table, one that cannot
be opened and one that returns 3 and 4 but fails to close: the total is 7, and
it is the total of the last database alone. -/
theorem count_readable_witness :
    (getEvolutionUnreadMailsCount 64 [inboxDb, archiveDb, draftsDb] brokenDb).err = none ∧
    (getEvolutionUnreadMailsCount 64 [inboxDb, archiveDb, draftsDb] brokenDb).count = 7 ∧
    (getEvolutionUnreadMailsCount 64 [inboxDb, archiveDb, draftsDb] brokenDb).count =
      (getEvolutionUnreadMailsCount 64 ([] ++ [archiveDb, draftsDb]) brokenDb).count :=
  ⟨(count_readable 64 brokenDb [inboxDb, archiveDb, draftsDb]).1,
    ((count_readable 64 brokenDb [inboxDb, archiveDb, draftsDb]).2.2.1 (by decide)).trans
      (by decide),
    (count_readable 64 brokenDb [inboxDb, archiveDb, draftsDb]).2.2.2 [] inboxDb
      [archiveDb, draftsDb] rfl (by decide)⟩

/-! ## C8: connections opened by the aggregator -/

theorem openConnections_append (ops more : List DbOp) (live : List String) :
    openConnections (ops ++ more) live = openConnections more (openConnections ops live) := by
  induction ops generalizing live with
  | nil => rfl
  | cons op ops ih =>
    cases op with
    | connect dbFile ok => cases ok <;> simp [openConnections, ih]
    | select dbFile ok => simp [openConnections, ih]
    | close dbFile ok => simp [openConnections, ih]

/-- On the paths where the query does not fail, every connection the loop
opens is closed again. -/
theorem countLoop_closes (bits : Nat) (db : String → Database) (paths : List String)
    (st : AggState) (hst : openConnections st.ops [] = [])
    (h : ∀ dbFile ∈ paths, (db dbFile).connect = true → (db dbFile).select ≠ none) :
    openConnections (countLoop bits db paths st).ops [] = [] := by
  induction paths generalizing st with
  | nil => simpa [countLoop] using hst
  | cons dbFile rest ih =>
    have hrest : ∀ f ∈ rest, (db f).connect = true → (db f).select ≠ none :=
      fun f hf => h f (List.mem_cons_of_mem _ hf)
    simp only [countLoop]
    cases hc : (db dbFile).connect with
    | false =>
      simp only [Bool.false_eq_true, if_false]
      refine ih _ ?_ hrest
      simp [openConnections_append, hst, openConnections]
    | true =>
      simp only [if_true]
      cases hs : (db dbFile).select with
      | none => exact absurd hs (h dbFile (List.mem_cons_self _ _) hc)
      | some counts =>
        cases hcl : (db dbFile).close with
        | false =>
          simp only [Bool.false_eq_true, if_false]
          refine ih _ ?_ hrest
          simp [openConnections_append, hst, openConnections]
        | true =>
          simp only [if_true]
          refine ih _ ?_ hrest
          simp [openConnections_append, hst, openConnections]

/-- When no query fails, no connection opened by the call is left open. -/
theorem getEvolutionUnreadMailsCount_closes (bits : Nat) (db : String → Database)
    (paths : List String)
    (h : ∀ dbFile ∈ paths, (db dbFile).connect = true → (db dbFile).select ≠ none) :
    openConnections (getEvolutionUnreadMailsCount bits paths db).ops [] = [] :=
  countLoop_closes bits db paths { unreadCount := 0, ops := [], errors := [] } rfl h

/-- C8 (failing input): a database that opens but has no `folders` table. The
call connects, the query fails, `db.Close` is never called, and the connection
is still open when the call returns; the database after it, whose query
succeeds, is closed. -/
theorem query_failure_leaves_connection_open :
    (getEvolutionUnreadMailsCount 64 [inboxDb, draftsDb] brokenDb).ops =
      [DbOp.connect inboxDb true, DbOp.select inboxDb false,
        DbOp.connect draftsDb true, DbOp.select draftsDb true, DbOp.close draftsDb false] ∧
    openConnections (getEvolutionUnreadMailsCount 64 [inboxDb, draftsDb] brokenDb).ops [] =
      [inboxDb] := by
  constructor <;> decide

/-! ## C3: the published parameters -/

/-- C3: for every count `n` the map built by `emitDBusSignal` has exactly the
keys `count` and `count-visible`, `count` holds `n`, `count-visible` holds a
boolean that is true if and only if `n > 0`, and the signal is emitted at
object path `/` under the name `com.canonical.Unity.LauncherEntry.Update`
with the identity `application://` followed by the desktop file name. This
covers `n = 0` and the largest `uint` value `2 ^ bits - 1`. -/
theorem emitDBusSignal_params (desktopFileName : String) (n : Nat) :
    (∀ key, key ∈ (emitDBusSignal desktopFileName n).params.keys ↔
      key = "count" ∨ key = "count-visible") ∧
    (emitDBusSignal desktopFileName n).params.keys.Nodup ∧
    (emitDBusSignal desktopFileName n).params.get "count" = some (Variant.uint n) ∧
    (∃ visible, (emitDBusSignal desktopFileName n).params.get "count-visible" =
      some (Variant.bool visible) ∧ (visible = true ↔ n > 0)) ∧
    (emitDBusSignal desktopFileName n).path = "/" ∧
    (emitDBusSignal desktopFileName n).name = "com.canonical.Unity.LauncherEntry.Update" ∧
    (emitDBusSignal desktopFileName n).identity = "application://" ++ desktopFileName ∧
    (emitDBusSignal desktopFileName 0).params.get "count-visible" =
      some (Variant.bool false) ∧
    (∀ bits, (emitDBusSignal desktopFileName (2 ^ bits - 1)).params.get "count" =
      some (Variant.uint (2 ^ bits - 1))) := by
  have hkeys : (emitDBusSignal desktopFileName n).params.keys = ["count", "count-visible"] := by
    simp [emitDBusSignal, Params.set, Params.keys]
  have hcount : ∀ m, (emitDBusSignal desktopFileName m).params.get "count" =
      some (Variant.uint m) := by
    intro m
    simp [emitDBusSignal, Params.set, Params.get, List.find?]
  have hvis : ∀ m, (emitDBusSignal desktopFileName m).params.get "count-visible" =
      some (Variant.bool (decide (m > 0))) := by
    intro m
    simp [emitDBusSignal, Params.set, Params.get, List.find?]
  refine ⟨?_, ?_, hcount n, ⟨decide (n > 0), hvis n, by simp⟩, rfl, rfl, rfl, ?_, ?_⟩
  · intro key
    rw [hkeys]
    simp
  · rw [hkeys]
    decide
  · simpa using hvis 0
  · intro bits
    exact hcount _

/-! ## C4, C5: discovery -/

theorem collectDatabase_ok (path name : String) (isDir : Bool) (paths : List String) :
    collectDatabase path (some { name := name, isDir := isDir }) none paths =
      (none, if hasSuffix name "folders.db" then paths ++ [path] else paths) := by
  simp only [collectDatabase]
  split <;> rfl

mutual
/-- The walk with the program's callback never returns an error. -/
theorem walk_collectDatabase_nil (path : String) :
    (e : Entry) → (paths : List String) → (walk collectDatabase path e paths).1 = none
  | Entry.lstatFails _, paths => by simp [walk, collectDatabase]
  | Entry.file name, paths => by
    simp only [walk, collectDatabase]
    split <;> rfl
  | Entry.dirUnreadable _, paths => by simp [walk, collectDatabase]
  | Entry.dir name children, paths => by
    simp only [walk, collectDatabase_ok]
    exact walkNames_collectDatabase_nil path children _
/-- The loop over the entries of a directory never returns an error. -/
theorem walkNames_collectDatabase_nil (path : String) :
    (es : List Entry) → (paths : List String) →
      (walkNames collectDatabase path es paths).1 = none
  | [], paths => by simp [walkNames]
  | child :: rest, paths => by
    have h := walk_collectDatabase_nil (joinPath path child.name) child paths
    rw [walkNames]
    cases hres : walk collectDatabase (joinPath path child.name) child paths with
    | mk err s1 =>
      rw [hres] at h
      simp only at h
      subst h
      exact walkNames_collectDatabase_nil path rest s1
end

theorem examinedMatchingPaths_append (xs ys : List (String × Entry)) :
    examinedMatchingPaths (xs ++ ys) =
      examinedMatchingPaths xs ++ examinedMatchingPaths ys := by
  simp [examinedMatchingPaths]

mutual
/-- On every tree the walk returns no error and appends the path of every
entry that is examined without error and whose name matches, in listing
order. -/
theorem walk_collectDatabase (path : String) :
    (e : Entry) → (paths : List String) →
      walk collectDatabase path e paths =
        (none, paths ++ examinedMatchingPaths (Entry.listing path e))
  | Entry.lstatFails _, paths => by
    simp [walk, collectDatabase, Entry.listing, examinedMatchingPaths, Entry.examined]
  | Entry.file name, paths => by
    simp only [walk, collectDatabase_ok]
    by_cases hm : hasSuffix name "folders.db" = true
    · simp [Entry.listing, examinedMatchingPaths, List.filter_cons, Entry.name,
        Entry.examined, hm]
    · simp [Entry.listing, examinedMatchingPaths, List.filter_cons, Entry.name,
        Entry.examined, hm]
  | Entry.dirUnreadable _, paths => by
    simp [walk, collectDatabase, Entry.listing, examinedMatchingPaths, Entry.examined]
  | Entry.dir name children, paths => by
    simp only [walk, collectDatabase_ok]
    rw [walkNames_collectDatabase path children _]
    by_cases hm : hasSuffix name "folders.db" = true
    · simp [Entry.listing, examinedMatchingPaths, List.filter_cons, Entry.name,
        Entry.examined, hm]
    · simp [Entry.listing, examinedMatchingPaths, List.filter_cons, Entry.name,
        Entry.examined, hm]
/-- The same for the loop over the entries of a directory: an entry that
cannot be examined does not stop the loop. -/
theorem walkNames_collectDatabase (path : String) :
    (es : List Entry) → (paths : List String) →
      walkNames collectDatabase path es paths =
        (none, paths ++ examinedMatchingPaths (Entry.listingOf path es))
  | [], paths => by simp [walkNames, Entry.listingOf, examinedMatchingPaths]
  | child :: rest, paths => by
    rw [walkNames, walk_collectDatabase (joinPath path child.name) child paths]
    simp only
    rw [walkNames_collectDatabase path rest _, Entry.listingOf,
      examinedMatchingPaths_append, List.append_assoc]
end

mutual
/-- In a readable tree every entry is examined without error. -/
theorem listing_examined (path : String) :
    (e : Entry) → e.readable = true → ∀ pe ∈ Entry.listing path e, pe.2.examined = true
  | Entry.lstatFails _, h => by simp [Entry.readable] at h
  | Entry.file name, _ => by
    intro pe hpe
    simp only [Entry.listing, List.mem_singleton] at hpe
    subst hpe
    rfl
  | Entry.dirUnreadable _, h => by simp [Entry.readable] at h
  | Entry.dir name children, h => by
    have hch : Entry.readableAll children = true := by simpa [Entry.readable] using h
    intro pe hpe
    simp only [Entry.listing, List.mem_cons] at hpe
    rcases hpe with hpe | hpe
    · subst hpe
      rfl
    · exact listingOf_examined path children hch pe hpe
/-- The same for the entries below a directory. -/
theorem listingOf_examined (path : String) :
    (es : List Entry) → Entry.readableAll es = true →
      ∀ pe ∈ Entry.listingOf path es, pe.2.examined = true
  | [], _ => by simp [Entry.listingOf]
  | child :: rest, h => by
    have hboth : child.readable = true ∧ Entry.readableAll rest = true := by
      simpa [Entry.readableAll] using h
    intro pe hpe
    simp only [Entry.listingOf, List.mem_append] at hpe
    rcases hpe with hpe | hpe
    · exact listing_examined (joinPath path child.name) child hboth.1 pe hpe
    · exact listingOf_examined path rest hboth.2 pe hpe
end

/-- The only error `getEvolutionMailDatabasesPaths` can return is the one of
`user.Current()`. -/
theorem getEvolutionMailDatabasesPaths_err (userCurrent : Option String) (tree : Entry)
    (paths : List String) :
    (getEvolutionMailDatabasesPaths userCurrent tree paths).1 ≠ none ↔ userCurrent = none := by
  cases userCurrent with
  | none => simp [getEvolutionMailDatabasesPaths]
  | some homeDir =>
    have h := walk_collectDatabase_nil (mailCacheDir homeDir) tree paths
    simp only [getEvolutionMailDatabasesPaths, Walk]
    cases hres : walk collectDatabase (mailCacheDir homeDir) tree paths with
    | mk err s1 =>
      rw [hres] at h
      simp only at h
      subst h
      simp

/-- C4 (as stated, refuted): in a readable tree, listed the way the file
system lists it, that holds a directory named `old-folders.db`, the path of
that directory is collected although it is not a file, so the collected paths
are not exactly the matching files. -/
theorem matching_directory_collected :
    cacheWithMatchingDir.name = "mail" ∧
    cacheWithMatchingDir.readable = true ∧
    cacheWithMatchingDir.wellFormed = true ∧
    getEvolutionMailDatabasesPaths (some "/home/u") cacheWithMatchingDir [] =
      (none, ["/home/u/.cache/evolution/mail/1/folders.db",
        "/home/u/.cache/evolution/mail/old-folders.db"]) ∧
    specDatabaseFiles (mailCacheDir "/home/u") cacheWithMatchingDir =
      ["/home/u/.cache/evolution/mail/1/folders.db"] ∧
    (getEvolutionMailDatabasesPaths (some "/home/u") cacheWithMatchingDir []).2 ≠
      specDatabaseFiles (mailCacheDir "/home/u") cacheWithMatchingDir := by
  refine ⟨?_, ?_, ?_, ?_, ?_, ?_⟩ <;> decide

/-- C4 (amended): for every home directory and every directory tree at the
mail cache directory, starting from an empty path set, the function returns no
error and collects exactly the paths of the entries of the tree, files and
directories alike, that are examined without error and whose name ends with
`folders.db`: one path per such entry at any depth, and none for any other
entry; an entry that cannot be examined or listed is skipped and the walk goes
on. In a tree where every entry can be examined and listed these are all the
entries whose name matches, and they are exactly the matching files when no
directory of the tree has such a name. -/
theorem discovery_collects_matching (homeDir : String) (tree : Entry) :
    getEvolutionMailDatabasesPaths (some homeDir) tree [] =
      (none, examinedMatchingEntries (mailCacheDir homeDir) tree) ∧
    (tree.readable = true →
      (getEvolutionMailDatabasesPaths (some homeDir) tree []).2 =
        matchingEntries (mailCacheDir homeDir) tree) ∧
    (tree.readable = true →
      (∀ pe ∈ Entry.listing (mailCacheDir homeDir) tree,
        pe.2.isDir = true → hasSuffix pe.2.name "folders.db" = false) →
      (getEvolutionMailDatabasesPaths (some homeDir) tree []).2 =
        specDatabaseFiles (mailCacheDir homeDir) tree) := by
  have hres : getEvolutionMailDatabasesPaths (some homeDir) tree [] =
      (none, examinedMatchingEntries (mailCacheDir homeDir) tree) := by
    simp [getEvolutionMailDatabasesPaths, Walk, walk_collectDatabase,
      examinedMatchingEntries]
  have hall : tree.readable = true →
      examinedMatchingEntries (mailCacheDir homeDir) tree =
        matchingEntries (mailCacheDir homeDir) tree := by
    intro hread
    simp only [examinedMatchingEntries, examinedMatchingPaths, matchingEntries, matchingPaths]
    congr 1
    apply List.filter_congr
    intro pe hpe
    simp [listing_examined (mailCacheDir homeDir) tree hread pe hpe]
  refine ⟨hres, ?_, ?_⟩
  · intro hread
    rw [hres]
    exact hall hread
  · intro hread hdirs
    rw [hres]
    simp only [hall hread, matchingEntries, matchingPaths, specDatabaseFiles]
    congr 1
    apply List.filter_congr
    intro pe hpe
    cases hd : pe.2.isDir with
    | false => simp
    | true => simp [hdirs pe hpe hd]

/-- Discovery on a tree with matching files at three depths, and on a tree
with an account that cannot be listed and a file that cannot be examined. -/
theorem discovery_collects_matching_witness :
    cacheNested.wellFormed = true ∧
    (getEvolutionMailDatabasesPaths (some "/home/u") cacheNested []).2 =
      specDatabaseFiles (mailCacheDir "/home/u") cacheNested ∧
    specDatabaseFiles (mailCacheDir "/home/u") cacheNested =
      ["/home/u/.cache/evolution/mail/1/folders.db",
        "/home/u/.cache/evolution/mail/1/sub/archive-folders.db",
        "/home/u/.cache/evolution/mail/folders.db"] ∧
    cachePartlyUnreadable.wellFormed = true ∧
    getEvolutionMailDatabasesPaths (some "/home/u") cachePartlyUnreadable [] =
      (none, examinedMatchingEntries (mailCacheDir "/home/u") cachePartlyUnreadable) ∧
    examinedMatchingEntries (mailCacheDir "/home/u") cachePartlyUnreadable =
      ["/home/u/.cache/evolution/mail/1/folders.db",
        "/home/u/.cache/evolution/mail/4/folders.db"] :=
  ⟨by decide,
    (discovery_collects_matching "/home/u" cacheNested).2.2 (by decide) (by decide),
    by decide,
    by decide,
    (discovery_collects_matching "/home/u" cachePartlyUnreadable).1,
    by decide⟩

/-- C5 (failing input): when `<home>/.cache/evolution/mail` is missing
(`Lstat` fails) or cannot be listed, the callback swallows the error, the
function returns a `nil` error with no path collected, and `main` goes on to
publish a zero count instead of exiting with code 2. -/
theorem missing_cache_dir_returns_nil :
    getEvolutionMailDatabasesPaths (some "/home/u") (Entry.lstatFails "mail") [] = (none, []) ∧
    getEvolutionMailDatabasesPaths (some "/home/u") (Entry.dirUnreadable "mail") [] =
      (none, []) ∧
    main missingCacheEnv =
      MainResult.started [] (emitDBusSignal "org.gnome.Evolution.desktop" 0) ∧
    main missingCacheEnv ≠ MainResult.exit 2 := by
  refine ⟨?_, ?_, ?_, ?_⟩ <;> decide

/-! ## C7, C9: startup -/

/-- C7 (as stated, refuted): no environment makes `main` exit with code 4,
because `getEvolutionUnreadMailsCount` returns a `nil` error on every input;
the fourth fatal path is not reachable. -/
theorem exit_four_unreachable : ¬ ∃ env : Env, main env = MainResult.exit 4 := by
  rintro ⟨env, h⟩
  simp only [main] at h
  split at h
  · split at h
    · split at h
      · cases h
      · simp [getEvolutionUnreadMailsCount_err] at h
    · cases h
  · cases h

/-- C7 (amended): `main` exits with code 3 exactly when the bus connection
fails, with code 1 exactly when the bus connects and watcher creation fails,
with code 2 exactly when both succeed and discovery returns an error, and with
code 4 exactly when those three succeed and the initial aggregation returns an
error; the four codes are pairwise distinct; the paths to codes 3, 1 and 2 are
each reachable, and the path to code 4 is not, since the aggregation never
returns an error. -/
theorem main_exit_codes :
    (∀ env : Env,
      (main env = MainResult.exit 3 ↔ env.connectSessionBus = false) ∧
      (main env = MainResult.exit 1 ↔
        env.connectSessionBus = true ∧ env.newWatcher = false) ∧
      (main env = MainResult.exit 2 ↔
        env.connectSessionBus = true ∧ env.newWatcher = true ∧
        (getEvolutionMailDatabasesPaths env.userCurrent env.mailDir []).1 ≠ none) ∧
      (main env = MainResult.exit 4 ↔
        env.connectSessionBus = true ∧ env.newWatcher = true ∧
        (getEvolutionMailDatabasesPaths env.userCurrent env.mailDir []).1 = none ∧
        (getEvolutionUnreadMailsCount env.bits
          (getEvolutionMailDatabasesPaths env.userCurrent env.mailDir []).2 env.db).err ≠
            none)) ∧
    [3, 1, 2, 4].Nodup ∧
    (∃ env : Env, main env = MainResult.exit 3) ∧
    (∃ env : Env, main env = MainResult.exit 1) ∧
    (∃ env : Env, main env = MainResult.exit 2) ∧
    (∀ env : Env, main env ≠ MainResult.exit 4) := by
  refine ⟨?_, by decide, ⟨startupEnv false true (some "/home/u"), by decide⟩,
    ⟨startupEnv true false (some "/home/u"), by decide⟩,
    ⟨startupEnv true true none, by decide⟩, ?_⟩
  · intro env
    cases hb : env.connectSessionBus <;> cases hw : env.newWatcher <;>
      simp only [main, hb, hw, if_true, Bool.false_eq_true, if_false] <;>
      try simp
    cases hd : getEvolutionMailDatabasesPaths env.userCurrent env.mailDir [] with
    | mk err paths =>
      cases err with
      | none => simp [getEvolutionUnreadMailsCount_err]
      | some e => simp
  · intro env h
    simp only [main] at h
    split at h
    · split at h
      · split at h
        · cases h
        · simp [getEvolutionUnreadMailsCount_err] at h
      · cases h
    · cases h

/-- C9: with an empty path set `getEvolutionUnreadMailsCount` makes no
database call and returns count 0 with a `nil` error; hence, when the bus and
the watcher are available and discovery returns no path, startup reaches
"Evolved started." with an initial publish whose `count` is 0 and whose
`count-visible` is false, and does not exit with code 4. -/
theorem empty_paths_startup (env : Env) (hbus : env.connectSessionBus = true)
    (hwatcher : env.newWatcher = true)
    (hpaths : getEvolutionMailDatabasesPaths env.userCurrent env.mailDir [] = (none, [])) :
    getEvolutionUnreadMailsCount env.bits [] env.db =
      { count := 0, err := none, ops := [], errors := [] } ∧
    main env = MainResult.started [] (emitDBusSignal env.desktopFileName 0) ∧
    (emitDBusSignal env.desktopFileName 0).params.get "count" = some (Variant.uint 0) ∧
    (emitDBusSignal env.desktopFileName 0).params.get "count-visible" =
      some (Variant.bool false) ∧
    main env ≠ MainResult.exit 4 := by
  have hmain : main env = MainResult.started [] (emitDBusSignal env.desktopFileName 0) := by
    simp [main, hbus, hwatcher, hpaths, getEvolutionUnreadMailsCount, countLoop]
  refine ⟨rfl, hmain, ?_, ?_, ?_⟩
  · simp [emitDBusSignal, Params.set, Params.get, List.find?]
  · simp [emitDBusSignal, Params.set, Params.get, List.find?]
  · rw [hmain]
    intro h
    cases h

/-- Startup with an empty mail cache directory. -/
theorem empty_paths_startup_witness :
    getEvolutionMailDatabasesPaths (some "/home/u") (Entry.dir "mail" []) [] = (none, []) ∧
    main (startupEnv true true (some "/home/u")) =
      MainResult.started [] (emitDBusSignal "org.gnome.Evolution.desktop" 0) ∧
    main (startupEnv true true (some "/home/u")) ≠ MainResult.exit 4 :=
  ⟨by decide,
    (empty_paths_startup (startupEnv true true (some "/home/u")) rfl rfl (by decide)).2.1,
    (empty_paths_startup (startupEnv true true (some "/home/u")) rfl rfl (by decide)).2.2.2.2⟩

/-! ## C10: the watcher loop -/

theorem watchStep_stopped (bits : Nat) (desktopFileName : String) (paths : List String)
    (inputs : List WatchInput) (st : WatchState) (h : st.running = false) :
    inputs.foldl (watchStep bits desktopFileName paths) st = st := by
  induction inputs with
  | nil => rfl
  | cons i rest ih => simp [List.foldl_cons, watchStep, h, ih]

theorem watchLoop_from (bits : Nat) (desktopFileName : String) (paths : List String)
    (inputs : List WatchInput) (published : List Emission) :
    inputs.foldl (watchStep bits desktopFileName paths)
        { running := true, published := published } =
      { running := inputs.all (fun i => !i.isClosed)
        published := published ++ expectedSignals bits desktopFileName paths inputs } := by
  induction inputs generalizing published with
  | nil => simp [expectedSignals]
  | cons i rest ih =>
    cases i with
    | event name op db =>
      simp only [List.foldl_cons, watchStep, if_true, getEvolutionUnreadMailsCount_err]
      rw [ih]
      simp [expectedSignals, WatchInput.isClosed, WatchInput.signal, List.takeWhile_cons]
    | error msg =>
      simp only [List.foldl_cons, watchStep, if_true]
      rw [ih]
      simp [expectedSignals, WatchInput.isClosed, WatchInput.signal, List.takeWhile_cons]
    | eventsClosed =>
      simp only [List.foldl_cons, watchStep, if_true]
      rw [watchStep_stopped _ _ _ _ _ rfl]
      simp [expectedSignals, WatchInput.isClosed, List.takeWhile_cons]
    | errorsClosed =>
      simp only [List.foldl_cons, watchStep, if_true]
      rw [watchStep_stopped _ _ _ _ _ rfl]
      simp [expectedSignals, WatchInput.isClosed, List.takeWhile_cons]

/-- C10: for every finite sequence of inputs the loop publishes exactly the
signals of the change events received before the first channel-closed input,
one per event, each with the count aggregated at that moment, in order of
arrival; it is still running exactly when no channel-closed input occurred; a
watcher error leaves the state of a running loop unchanged; a change event in
a running loop appends exactly one signal; and after the first channel-closed
input on either channel the loop has stopped and whatever follows publishes
nothing more. -/
theorem watch_loop_publishes (bits : Nat) (desktopFileName : String)
    (databasesPaths : List String) (inputs : List WatchInput) :
    (watchFSNotifications bits desktopFileName databasesPaths inputs).published =
      expectedSignals bits desktopFileName databasesPaths inputs ∧
    (watchFSNotifications bits desktopFileName databasesPaths inputs).running =
      inputs.all (fun i => !i.isClosed) ∧
    (∀ (published : List Emission) (msg : String),
      watchStep bits desktopFileName databasesPaths
        { running := true, published := published } (WatchInput.error msg) =
        { running := true, published := published }) ∧
    (∀ (published : List Emission) (name op : String) (db : String → Database),
      watchStep bits desktopFileName databasesPaths
        { running := true, published := published } (WatchInput.event name op db) =
        { running := true
          published := published ++ [emitDBusSignal desktopFileName
            (getEvolutionUnreadMailsCount bits databasesPaths db).count] }) ∧
    (∀ (closed : WatchInput) (later : List WatchInput), closed.isClosed = true →
      watchFSNotifications bits desktopFileName databasesPaths (inputs ++ closed :: later) =
        { running := false
          published := expectedSignals bits desktopFileName databasesPaths inputs }) := by
  refine ⟨?_, ?_, ?_, ?_, ?_⟩
  · simp [watchFSNotifications, watchLoop_from]
  · simp [watchFSNotifications, watchLoop_from]
  · intro published msg
    simp [watchStep]
  · intro published name op db
    simp [watchStep, getEvolutionUnreadMailsCount_err]
  · intro closed later hclosed
    simp only [watchFSNotifications, List.foldl_append, List.foldl_cons, watchLoop_from,
      List.nil_append]
    by_cases hall : inputs.all (fun i => !i.isClosed) = true
    · rw [hall]
      cases closed with
      | event name op db => simp [WatchInput.isClosed] at hclosed
      | error msg => simp [WatchInput.isClosed] at hclosed
      | eventsClosed =>
        simp only [watchStep, if_true]
        rw [watchStep_stopped _ _ _ _ _ rfl]
      | errorsClosed =>
        simp only [watchStep, if_true]
        rw [watchStep_stopped _ _ _ _ _ rfl]
    · have hfalse : inputs.all (fun i => !i.isClosed) = false := by
        simpa using hall
      rw [hfalse]
      simp only [watchStep, Bool.false_eq_true, if_false]
      rw [watchStep_stopped _ _ _ _ _ rfl]

/-- The watcher loop on a change event, a watcher error, a second change
event, the closing of the events channel and a late change event: two signals
are published, with counts 7 and 5. -/
theorem watch_loop_publishes_witness :
    watchFSNotifications 64 "org.gnome.Evolution.desktop" [inboxDb, archiveDb, draftsDb]
      ([WatchInput.event inboxDb "WRITE" scenarioDb, WatchInput.error "overflow",
        WatchInput.event inboxDb "WRITE" scenarioDbRead] ++
        WatchInput.eventsClosed :: [WatchInput.event inboxDb "WRITE" scenarioDb]) =
      { running := false
        published := [emitDBusSignal "org.gnome.Evolution.desktop" 7,
          emitDBusSignal "org.gnome.Evolution.desktop" 5] } :=
  ((watch_loop_publishes 64 "org.gnome.Evolution.desktop" [inboxDb, archiveDb, draftsDb]
    [WatchInput.event inboxDb "WRITE" scenarioDb, WatchInput.error "overflow",
      WatchInput.event inboxDb "WRITE" scenarioDbRead]).2.2.2.2
    WatchInput.eventsClosed [WatchInput.event inboxDb "WRITE" scenarioDb] rfl).trans
    (by decide)

/-! ## C6: shutdown -/

/-- After `os.Exit` no further step is taken. -/
theorem sysRun_exited (bits : Nat) (desktopFileName : String) (paths : List String)
    (s s1 : Sys) (acts : List Action) (h : s.exitCode.isSome = true)
    (hrun : sysRun bits desktopFileName paths s acts = some s1) : s1 = s := by
  cases acts with
  | nil =>
    simp only [sysRun, Option.some.injEq] at hrun
    exact hrun.symm
  | cons a rest => simp [sysRun, sysStep, h] at hrun

/-- When the watcher has been closed while the watcher goroutine was not
between its aggregation and its publish, every schedule that reaches
`os.Exit` exits with code 0 and publishes, from then on, only what the
shutdown goroutine still has to publish: the zero signal if it has not been
sent yet, and nothing otherwise. -/
theorem sysRun_quiet (bits : Nat) (desktopFileName : String) (paths : List String)
    (code : Nat) (acts : List Action) :
    ∀ (s s1 : Sys),
      (s.watcher = WatcherPc.selecting ∨ s.watcher = WatcherPc.returned) →
      s.watcherOpen = false →
      (s.handler = HandlerPc.watcherClosed ∨ s.handler = HandlerPc.emitted ∨
        s.handler = HandlerPc.done) →
      s.exitCode = none →
      sysRun bits desktopFileName paths s acts = some s1 →
      s1.exitCode = some code →
      code = 0 ∧
      s1.published = s.published ++
        (if s.handler = HandlerPc.watcherClosed then [emitDBusSignal desktopFileName 0]
          else []) := by
  induction acts with
  | nil =>
    intro s s1 _ _ _ hexit hrun hcode
    simp only [sysRun, Option.some.injEq] at hrun
    subst hrun
    rw [hexit] at hcode
    cases hcode
  | cons a rest ih =>
    intro s s1 hw hopen hh hexit hrun hcode
    simp only [sysRun] at hrun
    cases hstep : sysStep bits desktopFileName paths s a with
    | none => simp [hstep] at hrun
    | some s2 =>
      rw [hstep] at hrun
      simp only at hrun
      cases a with
      | fsEvent db => simp [sysStep, hexit, hopen] at hstep
      | fsError => simp [sysStep, hexit, hopen] at hstep
      | watcherEmit =>
        rcases hw with hw | hw <;> simp [sysStep, hexit, hw] at hstep
      | watcherReturn =>
        rcases hw with hw | hw
        · simp only [sysStep, hexit, Option.isSome_none, Bool.false_eq_true, if_false, hw,
            hopen, and_self, if_true, Option.some.injEq] at hstep
          have := ih s2 s1 (by rw [← hstep]; exact Or.inr rfl) (by rw [← hstep])
            (by rw [← hstep]; exact hh) (by rw [← hstep]) hrun hcode
          rw [← hstep] at this
          exact this
        · simp [sysStep, hexit, hw] at hstep
      | signal =>
        rcases hh with hh | hh | hh <;> simp [sysStep, hexit, hh] at hstep
      | handlerClose =>
        rcases hh with hh | hh | hh <;> simp [sysStep, hexit, hh] at hstep
      | handlerEmit =>
        rcases hh with hh | hh | hh
        · simp only [sysStep, hexit, Option.isSome_none, Bool.false_eq_true, if_false, hh,
            if_true, Option.some.injEq] at hstep
          have := ih s2 s1 (by rw [← hstep]; exact hw) (by rw [← hstep]; exact hopen)
            (by rw [← hstep]; exact Or.inr (Or.inl rfl)) (by rw [← hstep]) hrun hcode
          rw [← hstep] at this
          simpa [hh] using this
        · simp [sysStep, hexit, hh] at hstep
        · simp [sysStep, hexit, hh] at hstep
      | handlerDone =>
        rcases hh with hh | hh | hh
        · simp [sysStep, hexit, hh] at hstep
        · simp only [sysStep, hexit, Option.isSome_none, Bool.false_eq_true, if_false, hh,
            if_true, Option.some.injEq] at hstep
          have := ih s2 s1 (by rw [← hstep]; exact hw) (by rw [← hstep]; exact hopen)
            (by rw [← hstep]; exact Or.inr (Or.inr rfl)) (by rw [← hstep]) hrun hcode
          rw [← hstep] at this
          simpa [hh] using this
        · simp [sysStep, hexit, hh] at hstep
      | mainExit =>
        rcases hh with hh | hh | hh
        · simp [sysStep, hexit, hh] at hstep
        · simp [sysStep, hexit, hh] at hstep
        · simp only [sysStep, hexit, Option.isSome_none, Bool.false_eq_true, if_false, hh,
            if_true, Option.some.injEq] at hstep
          have hs1 := sysRun_exited bits desktopFileName paths s2 s1 rest
            (by rw [← hstep]; rfl) hrun
          rw [hs1, ← hstep] at hcode ⊢
          simp only [Option.some.injEq] at hcode
          exact ⟨hcode.symm, by simp [hh]⟩

/-- C6 (failing input): a change event is received and aggregated to 5, then
the termination signal arrives; the shutdown goroutine closes the watcher and
publishes count 0, the watcher goroutine then publishes its count 5, and the
process exits with code 0. The zero signal is published once but is not the
last signal published. -/
theorem shutdown_zero_not_last :
    sysRun 64 "org.gnome.Evolution.desktop" [inboxDb, archiveDb, draftsDb]
      (sysStart (emitDBusSignal "org.gnome.Evolution.desktop" 7)) lateWatcherSchedule =
      some
        { watcher := WatcherPc.selecting
          handler := HandlerPc.done
          watcherOpen := false
          exitCode := some 0
          published := [emitDBusSignal "org.gnome.Evolution.desktop" 7,
            emitDBusSignal "org.gnome.Evolution.desktop" 0,
            emitDBusSignal "org.gnome.Evolution.desktop" 5] } ∧
    ([emitDBusSignal "org.gnome.Evolution.desktop" 7,
        emitDBusSignal "org.gnome.Evolution.desktop" 0,
        emitDBusSignal "org.gnome.Evolution.desktop" 5].getLast? ≠
      some (emitDBusSignal "org.gnome.Evolution.desktop" 0)) := by
  constructor <;> decide

end Evolved
